import Mathlib

/-!
Shallow embedding of the Syn-Syu core (synsyu_core): the AUR remote
metadata client (src/aur.rs), the pacman collaborator boundary
(src/pacman.rs) and the reconciliation / manifest builder
(src/manifest.rs), together with theorems settling the specification
claims about them.

Machine integers (`u64`, `usize`) are modelled as `Nat`; the source's
saturating operations are modelled explicitly with a `2^64 - 1` cap.
External collaborators (the `vercmp` comparator, the network, the
spawned `pacman` processes, the `urlencoding` crate) are modelled as
explicit parameters or oracles, mirroring the spec's boundary in §6.
-/

/-- Largest value of a Rust `u64`. -/
def U64_MAX : Nat := 18446744073709551615

/-- Model of `u64::saturating_add`. -/
def satAdd64 (a b : Nat) : Nat := min (a + b) U64_MAX

/-- Model of `u64::saturating_mul`. -/
def satMul64 (a b : Nat) : Nat := min (a * b) U64_MAX

/-- `package_info.rs`: version metadata for a package source (repo or AUR). -/
structure VersionInfo where
  version : String
  download_size : Option Nat
  installed_size : Option Nat
deriving Repr, DecidableEq

/-- `pacman.rs`: a package currently installed on the system. -/
structure InstalledPackage where
  name : String
  version : String
  repository : Option String
deriving Repr, DecidableEq

/-- `manifest.rs`: source classification for an update candidate. -/
inductive PackageSource where
  | Pacman
  | Aur
  | Local
  | Unknown
deriving Repr, DecidableEq

/-- `manifest.rs`: per-package manifest entry. -/
structure ManifestEntry where
  installed_version : String
  version_repo : Option String
  version_aur : Option String
  newer_version : String
  source : PackageSource
  update_available : Bool
  notes : Option String
  download_size_repo : Option Nat
  installed_size_repo : Option Nat
  download_size_aur : Option Nat
  installed_size_aur : Option Nat
  download_size_selected : Option Nat
  installed_size_selected : Option Nat
deriving Repr, DecidableEq

/-- `error.rs`: the error taxonomy (variants relevant to the core). -/
inductive SynsyuError where
  | Network (detail : String)
  | Serialization (detail : String)
  | CommandFailure (command : String) (status : Int) (stderr : String)
  | CommandMissing (command : String)
  | Runtime (detail : String)
deriving Repr, DecidableEq

/-- The external version comparator collaborator (`vercmp` via
`pacman.rs::compare_versions`): fallible, `none` models a
`ComparisonError`. -/
def Cmp : Type := String → String → Option Ordering

/-- `aur.rs`: the `AurConfig` consumed by `AurClient::new`
(the `timeout` field only configures the HTTP transport and is
irrelevant to every verified property, but kept for shape). -/
structure AurConfig where
  base_url : String
  timeout : Nat
  max_args : Nat
  max_retries : Nat
  max_parallel_requests : Nat
  max_kib_per_sec : Nat
deriving Repr, DecidableEq

/-- `aur.rs`: the client state retained after `AurClient::new`
(the reqwest client handle itself is external transport state). -/
structure AurClient where
  base_url : String
  max_args : Nat
  max_retries : Nat
  max_parallel_requests : Nat
  max_kib_per_sec : Nat
deriving Repr, DecidableEq

/-- Model of `str::trim_end_matches('/')`. -/
def trimTrailingSlashes (s : String) : String :=
  String.mk ((s.data.reverse.dropWhile (fun c => c = '/')).reverse)

/-- `aur.rs::AurClient::new`: constructs the client, clamping
`max_args`, `max_retries` and `max_parallel_requests` to a minimum
of 1 and trimming trailing slashes off the base URL. -/
def AurClient.new (config : AurConfig) : AurClient :=
  { base_url := trimTrailingSlashes config.base_url
    max_args := max config.max_args 1
    max_retries := max config.max_retries 1
    max_parallel_requests := max config.max_parallel_requests 1
    max_kib_per_sec := config.max_kib_per_sec }

/-- `aur.rs::throttle_delay`: milliseconds of self-throttle sleep for a
payload of `bytes` bytes under a `kib_per_sec` cap; `none` means no
sleep. Mirrors the saturating u64 arithmetic of the source. -/
def throttle_delay (bytes kib_per_sec : Nat) : Option Nat :=
  if kib_per_sec = 0 then none
  else
    let denominator := satMul64 kib_per_sec 1024
    if denominator = 0 then none
    else
      let millis := satAdd64 (satMul64 bytes 1000) (denominator - 1) / denominator
      if millis = 0 then none else some millis

/-- `aur.rs::AurClient::enforce_rate_limit`: the sleep actually
performed after a successful response (`none` = no sleep). -/
def enforce_rate_limit (max_kib_per_sec : Nat) (content_length : Option Nat) : Option Nat :=
  if max_kib_per_sec = 0 then none
  else
    match content_length with
    | some bytes => throttle_delay bytes max_kib_per_sec
    | none => none

/-- `aur.rs::fetch_chunk` retry arm: the backoff sleep in milliseconds
taken before retry `attempt` (`200ms * 2^min(attempt, 8)`, computed in
the source as `200_u64.saturating_mul(1_u64 << exponent)` with
`exponent = attempt.min(8)`). -/
def backoff_delay (attempt : Nat) : Nat :=
  satMul64 200 (2 ^ min attempt 8)

/-- Auxiliary for `chunksOf`: splits a list into consecutive sublists
of length `n` (the last may be shorter), recursing on a fuel. -/
def chunksOfAux (n : Nat) : Nat → List α → List (List α)
  | _, [] => []
  | 0, l => [l]
  | fuel + 1, x :: xs =>
    if n = 0 then [x :: xs]
    else (x :: xs).take n :: chunksOfAux n fuel ((x :: xs).drop n)

/-- Model of Rust `slice::chunks n` via structural recursion on a fuel
bounded by the list length (each step with `n ≥ 1` strictly shortens
the list, so the fuel never runs out). Rust panics on `n = 0`; every
call site here passes a clamped `n ≥ 1`, and the `n = 0` arm returns
the whole list as one chunk to keep the function total. -/
def chunksOf (n : Nat) (l : List α) : List (List α) :=
  chunksOfAux n l.length l

/-- Model of `HashMap`/`BTreeMap` `insert`: replaces the binding for an
existing key in place, otherwise appends it. -/
def insertAL (m : List (String × α)) (k : String) (v : α) : List (String × α) :=
  match m with
  | [] => [(k, v)]
  | kv :: rest => if kv.1 = k then (k, v) :: rest else kv :: insertAL rest k v

/-- Model of `HashMap::extend`: inserts every binding of `new` into
`base` (later bindings overwrite earlier ones). -/
def extendAL (base new : List (String × α)) : List (String × α) :=
  new.foldl (fun acc kv => insertAL acc kv.1 kv.2) base

/-- Model of the external `urlencoding::encode` collaborator. The
verified properties never inspect URL contents, so percent-escaping is
modelled as the identity embedding of the name into the URL text. -/
def urlencode (s : String) : String := s

/-- `aur.rs::AurClient::compose_url`. -/
def compose_url (client : AurClient) (packages : List String) : String :=
  packages.foldl (fun url pkg => url ++ "&arg[]=" ++ urlencode pkg)
    (client.base_url ++ "?v=5&type=info")

/-- `aur.rs::AurEntry`: one result object of the AUR RPC response. -/
structure AurEntry where
  name : String
  version : String
  url_path : Option String
  compressed_size : Option Nat
  installed_size : Option Nat
deriving Repr, DecidableEq

/-- `aur.rs::AurResponse`: decoded AUR RPC response body. -/
structure AurResponse where
  result_count : Option Nat
  results : List AurEntry
  error : Option String
deriving Repr, DecidableEq

/-- One outcome of `reqwest` `send()` on a batch URL: either a
transport-level failure of the send itself, or a response with an HTTP
status code, an optional `Content-Length` and a body (`none` models a
body that fails JSON decoding). The network is modelled as an oracle
list supplying one outcome per issued request. -/
inductive SendOutcome where
  | transportError (msg : String)
  | response (status : Nat) (content_length : Option Nat) (body : Option AurResponse)
deriving Repr, DecidableEq

/-- The per-entry record construction of `aur.rs::fetch_chunk` (lines
147-157): the download size comes from `CompressedSize` when present,
else from the tarball size probe when a `URLPath` is present. `probe`
abstracts the `fetch_tarball_size` HEAD request (its own network
interaction), returning the recovered size hint for a URL path. -/
def aur_entry_record (probe : String → Option Nat) (entry : AurEntry) : VersionInfo :=
  VersionInfo.mk entry.version
    (match entry.compressed_size, entry.url_path with
     | some size, _ => some size
     | none, some path => probe path
     | none, none => none)
    entry.installed_size

/-- The `results` map assembly of `aur.rs::fetch_chunk` (lines
146-158): one insert per response entry, keyed by the name the remote
reported. -/
def collect_results (probe : String → Option Nat) (entries : List AurEntry) :
    List (String × VersionInfo) :=
  entries.foldl (fun acc entry => insertAL acc entry.name (aur_entry_record probe entry)) []

/-- `aur.rs::AurClient::fetch_chunk` loop body. Returns the result
together with the number of HTTP requests issued and the list of sleeps
performed (milliseconds), in order. -/
def fetch_chunk_loop (client : AurClient) (probe : String → Option Nat) (url : String) :
    List SendOutcome → Nat →
    Except SynsyuError (List (String × VersionInfo)) × Nat × List Nat
  | [], _ => (Except.error (SynsyuError.Runtime "network oracle exhausted"), 0, [])
  | outcome :: rest, attempt =>
    match outcome with
    | SendOutcome.transportError msg =>
      (Except.error (SynsyuError.Network ("AUR request to " ++ url ++ " failed: " ++ msg)),
        1, [])
    | SendOutcome.response status content_len body =>
      if status = 200 then
        match body with
        | none =>
          (Except.error (SynsyuError.Serialization "Failed to decode AUR response"), 1, [])
        | some payload =>
          match payload.error with
          | some err =>
            (Except.error
              (SynsyuError.Network ("AUR responded with error for " ++ url ++ ": " ++ err)),
              1, [])
          | none =>
            (Except.ok (collect_results probe payload.results), 1,
              (enforce_rate_limit client.max_kib_per_sec content_len).toList)
      else
        let attempt' := attempt + 1
        if client.max_retries ≤ attempt' then
          (Except.error (SynsyuError.Network
            ("AUR request " ++ url ++ " failed with status " ++ toString status ++
              " after " ++ toString attempt' ++ " retries")), 1, [])
        else
          let (r, sends, sleeps) := fetch_chunk_loop client probe url rest attempt'
          (r, sends + 1, backoff_delay attempt' :: sleeps)

/-- `aur.rs::AurClient::fetch_chunk`: runs the retry loop starting at
attempt 0 on the URL composed from the chunk. -/
def fetch_chunk (client : AurClient) (probe : String → Option Nat)
    (chunk : List String) (oracle : List SendOutcome) :
    Except SynsyuError (List (String × VersionInfo)) × Nat × List Nat :=
  fetch_chunk_loop client probe (compose_url client chunk) oracle 0

/-- The spawned per-chunk tasks of `aur.rs::fetch_versions`, linearized
in spawn order (which is also the `await` order of the join loop); each
task consumes its own network oracle. Returns the merged mapping (or the
first awaited task failure) and the total number of HTTP requests. -/
def fetch_tasks (client : AurClient) (probe : String → Option Nat) :
    List (List String) → List (List SendOutcome) →
    Except SynsyuError (List (String × VersionInfo)) × Nat
  | [], _ => (Except.ok [], 0)
  | chunk :: chunks, oracles =>
    let (r, sends, _) := fetch_chunk client probe chunk (oracles.headD [])
    match r with
    | Except.error e => (Except.error e, sends)
    | Except.ok chunk_map =>
      let (rest, sends2) := fetch_tasks client probe chunks (oracles.tailD [])
      match rest with
      | Except.error e => (Except.error e, sends + sends2)
      | Except.ok acc => (Except.ok (extendAL acc chunk_map), sends + sends2)

/-- `aur.rs::AurClient::fetch_versions`: empty input short-circuits with
an empty map before any chunking, task spawn or semaphore acquisition;
otherwise the names are chunked into batches of `max_args`, one task
(and one semaphore permit) per batch. Returns
(result, permits acquired, HTTP requests issued). -/
def fetch_versions (client : AurClient) (packages : List String)
    (oracles : List (List SendOutcome)) (probe : String → Option Nat) :
    Except SynsyuError (List (String × VersionInfo)) × Nat × Nat :=
  if packages = [] then (Except.ok [], 0, 0)
  else
    let chunks := chunksOf client.max_args packages
    let (r, sends) := fetch_tasks client probe chunks oracles
    (r, chunks.length, sends)

/-- Helper mirroring the `repo_cmp`/`aur_cmp` blocks of
`manifest.rs::resolve_package` (lines 156-166): compares the installed
version against the candidate when present; the outer `none` models the
propagated comparator failure (`?`). -/
def compare_opt (cmp : Cmp) (installed_version : String) :
    Option VersionInfo → Option (Option Ordering)
  | some info => (cmp installed_version info.version).map some
  | none => some none

/-- The no-source arm of `manifest.rs::resolve_package` (lines
197-203): a package is Local when its repository field is "local",
otherwise Unknown. -/
def local_source (package : InstalledPackage) : PackageSource :=
  if package.repository = some "local" then PackageSource.Local
  else PackageSource.Unknown

/-- The 5-arm `match` of `manifest.rs::resolve_package` (lines 168-213),
computing (source, target_version, update_available, notes); `none`
models the propagated comparator failure of the repo-vs-AUR comparison
in the both-present arm. The final arm mirrors the source's `_ =>`
wildcard (unreachable through `resolve_package`, where `repo_cmp` /
`aur_cmp` are `some` exactly when the corresponding info is). The
source's final `_ =>` wildcard — assign from whichever info is present,
keeping `update_available` false — is written out as the two remaining
pattern shapes, which is extensionally identical. -/
def resolve_core (cmp : Cmp) (package : InstalledPackage)
    (repo_info aur_info : Option VersionInfo)
    (repo_cmp aur_cmp : Option Ordering) :
    Option (PackageSource × String × Bool × Option String) :=
  match repo_info, repo_cmp, aur_info, aur_cmp with
  | some repo_v, some rc, none, _ =>
    some (PackageSource.Pacman, repo_v.version, rc == Ordering.lt, none)
  | none, _, some aur_v, some ac =>
    some (PackageSource.Aur, aur_v.version, ac == Ordering.lt, none)
  | some repo_v, some rc, some aur_v, some ac =>
    match cmp repo_v.version aur_v.version with
    | none => none
    | some Ordering.gt | some Ordering.eq =>
      some (PackageSource.Pacman, repo_v.version, rc == Ordering.lt,
        if ac = Ordering.gt then some "AUR ahead of repo, but repo chosen per policy"
        else none)
    | some Ordering.lt =>
      some (PackageSource.Aur, aur_v.version, ac == Ordering.lt, none)
  | none, _, none, _ =>
    some (local_source package, package.version, false, none)
  | some repo_v, _, _, _ =>
    some (PackageSource.Pacman, repo_v.version, false, none)
  | none, _, some aur_v, _ =>
    some (PackageSource.Aur, aur_v.version, false, none)

/-- The selected-size match of `manifest.rs::resolve_package` (lines
219-223): the two selected size fields mirror the per-source fields of
the chosen source, and are both absent for `Local`/`Unknown`. -/
def selected_sizes (source : PackageSource)
    (download_repo installed_repo download_aur installed_aur : Option Nat) :
    Option Nat × Option Nat :=
  match source with
  | PackageSource.Pacman => (download_repo, installed_repo)
  | PackageSource.Aur => (download_aur, installed_aur)
  | _ => (none, none)

/-- `manifest.rs::resolve_package`: the reconciliation engine. `none`
models a propagated comparator failure (`ComparisonError`). -/
def resolve_package (cmp : Cmp) (package : InstalledPackage)
    (repo_info aur_info : Option VersionInfo) : Option ManifestEntry :=
  match compare_opt cmp package.version repo_info with
  | none => none
  | some repo_cmp =>
    match compare_opt cmp package.version aur_info with
    | none => none
    | some aur_cmp =>
      match resolve_core cmp package repo_info aur_info repo_cmp aur_cmp with
      | none => none
      | some (source, target_version, update_available, notes) =>
        let download_repo := repo_info.bind VersionInfo.download_size
        let installed_repo := repo_info.bind VersionInfo.installed_size
        let download_aur := aur_info.bind VersionInfo.download_size
        let installed_aur := aur_info.bind VersionInfo.installed_size
        let selected :=
          selected_sizes source download_repo installed_repo download_aur installed_aur
        some
          { installed_version := package.version
            version_repo := repo_info.map VersionInfo.version
            version_aur := aur_info.map VersionInfo.version
            newer_version := target_version
            source := source
            update_available := update_available
            notes := notes
            download_size_repo := download_repo
            installed_size_repo := installed_repo
            download_size_aur := download_aur
            installed_size_aur := installed_aur
            download_size_selected := selected.1
            installed_size_selected := selected.2 }

/-- `manifest.rs`: the metadata block of the manifest (the
`generated_at` timestamp is wall-clock output and omitted; the spec
places persistence and formatting out of scope). -/
structure ManifestMetadata where
  generated_by : String
  total_packages : Nat
  repo_candidates : Nat
  aur_candidates : Nat
  updates_available : Nat
  download_size_total : Nat
deriving Repr, DecidableEq

/-- `manifest.rs::ManifestDocument`: the entries map is modelled as an
association list with `insert` overwrite semantics; iteration order of
the `BTreeMap` is irrelevant to every verified property. -/
structure ManifestDocument where
  metadata : ManifestMetadata
  packages : List (String × ManifestEntry)
deriving Repr, DecidableEq

/-- The per-package loop of `manifest.rs::build_manifest` (lines
101-128), carried as (entries, repo_candidates, aur_candidates,
updates_available, download_total); `none` models a propagated
comparator failure. Logging is out of scope and omitted. -/
def build_loop (cmp : Cmp) (repo_versions aur_versions : List (String × VersionInfo)) :
    List InstalledPackage →
    List (String × ManifestEntry) × Nat × Nat × Nat × Nat →
    Option (List (String × ManifestEntry) × Nat × Nat × Nat × Nat)
  | [], acc => some acc
  | package :: rest, (entries, repo_candidates, aur_candidates, updates_available, total) =>
    let repo_info := List.lookup package.name repo_versions
    let aur_info := List.lookup package.name aur_versions
    let repo_candidates' := if repo_info.isSome then repo_candidates + 1 else repo_candidates
    let aur_candidates' := if aur_info.isSome then aur_candidates + 1 else aur_candidates
    match resolve_package cmp package repo_info aur_info with
    | none => none
    | some resolved =>
      let counters :=
        if resolved.update_available then
          (updates_available + 1,
            match resolved.download_size_selected with
            | some size => satAdd64 total size
            | none => total)
        else (updates_available, total)
      build_loop cmp repo_versions aur_versions rest
        (insertAL entries package.name resolved, repo_candidates', aur_candidates',
          counters.1, counters.2)

/-- `manifest.rs::build_manifest`: reconciles every installed package
against the two candidate maps and assembles the manifest document. -/
def build_manifest (cmp : Cmp) (packages : List InstalledPackage)
    (repo_versions aur_versions : List (String × VersionInfo)) :
    Option ManifestDocument :=
  match build_loop cmp repo_versions aur_versions packages ([], 0, 0, 0, 0) with
  | none => none
  | some (entries, repo_candidates, aur_candidates, updates_available, total) =>
    some
      { metadata :=
          { generated_by := "synsyu_core"
            total_packages := packages.length
            repo_candidates := repo_candidates
            aur_candidates := aur_candidates
            updates_available := updates_available
            download_size_total := total }
        packages := entries }

/-- Output of a spawned `pacman` process: exit success flag, status
code, decoded stdout lines (`none` models invalid UTF-8) and stderr. -/
structure CmdOutput where
  success : Bool
  status_code : Int
  stdout_lines : Option (List String)
  stderr : String
deriving Repr, DecidableEq

/-- One outcome of spawning an external command: the spawn itself can
fail (`not_found` distinguishes `CommandMissing` from `Runtime`), or the
process runs and yields a `CmdOutput`. -/
inductive CmdResult where
  | spawnError (not_found : Bool)
  | output (o : CmdOutput)
deriving Repr, DecidableEq

/-- Model of Rust `str::split_once(':')`: splits at the first colon. -/
def split_once_colon (line : String) : Option (String × String) :=
  match line.splitOn ":" with
  | [] => none
  | [_] => none
  | key :: rest => some (key, String.intercalate ":" rest)

/-- State of the `pacman -Si` output parser of
`pacman.rs::query_repo_versions` (lines 132-135): current package name,
its version, and the two sizes. -/
structure SiParseState where
  current : Option String
  current_version : Option String
  download_size : Option Nat
  installed_size : Option Nat
deriving Repr, DecidableEq

/-- One line of the `pacman -Si` parser loop (lines 136-165).
`parseSize` abstracts `parse_pacman_size`, whose floating-point
arithmetic is outside the shallow embedding. Returns the updated state
and map. -/
def si_parse_line (parseSize : String → Option Nat)
    (acc : SiParseState × List (String × VersionInfo)) (line : String) :
    SiParseState × List (String × VersionInfo) :=
  let (st, versions) := acc
  match split_once_colon line with
  | some (raw_key, raw_value) =>
    let key := raw_key.trim
    let value := raw_value.trim
    match key with
    | "Name" => ({ current := some value, current_version := none,
                   download_size := none, installed_size := none }, versions)
    | "Version" => ({ st with current_version := some value }, versions)
    | "Download Size" => ({ st with download_size := parseSize value }, versions)
    | "Installed Size" => ({ st with installed_size := parseSize value }, versions)
    | _ => (st, versions)
  | none =>
    if line.trim = "" then
      match st.current, st.current_version with
      | some name, some ver =>
        ({ current := none, current_version := none,
           download_size := none, installed_size := none },
          insertAL versions name (VersionInfo.mk ver st.download_size st.installed_size))
      | _, _ =>
        ({ st with current := none, current_version := none,
                   download_size := none, installed_size := none }, versions)
    else (st, versions)

/-- The stdout parser of `pacman.rs::query_repo_versions` for one chunk:
folds the line loop over the output and performs the final flush (lines
166-168). -/
def parse_si_output (parseSize : String → Option Nat) (lines : List String)
    (versions : List (String × VersionInfo)) : List (String × VersionInfo) :=
  let (st, versions') :=
    lines.foldl (si_parse_line parseSize) (SiParseState.mk none none none none, versions)
  match st.current, st.current_version with
  | some name, some ver =>
    insertAL versions' name (VersionInfo.mk ver st.download_size st.installed_size)
  | _, _ => versions'

/-- The per-chunk loop of `pacman.rs::query_repo_versions` (lines
110-169): one spawned `pacman -Si` command per chunk, consumed from the
command oracle. Returns the result and the number of commands
spawned. -/
def query_repo_loop (parseSize : String → Option Nat) :
    List (List String) → List CmdResult → List (String × VersionInfo) →
    Except SynsyuError (List (String × VersionInfo)) × Nat
  | [], _, versions => (Except.ok versions, 0)
  | chunk :: rest, oracle, versions =>
    match oracle.headD (CmdResult.spawnError false) with
    | CmdResult.spawnError not_found =>
      (Except.error (if not_found then SynsyuError.CommandMissing "pacman"
        else SynsyuError.Runtime "Failed to spawn pacman"), 1)
    | CmdResult.output o =>
      if !o.success then
        (Except.error (SynsyuError.CommandFailure
          ("pacman -Si " ++ String.intercalate " " chunk) o.status_code o.stderr), 1)
      else
        match o.stdout_lines with
        | none =>
          (Except.error (SynsyuError.Serialization "pacman -Si emitted invalid UTF-8"), 1)
        | some lines =>
          let versions' := parse_si_output parseSize lines versions
          let (r, spawned) := query_repo_loop parseSize rest (oracle.tailD []) versions'
          (r, spawned + 1)

/-- `pacman.rs::query_repo_versions`: empty input short-circuits with an
empty map before any chunking or command spawn; otherwise the names are
chunked into groups of 64 and queried via one `pacman -Si` command
each. Returns (result, commands spawned). -/
def query_repo_versions (parseSize : String → Option Nat) (packages : List String)
    (oracle : List CmdResult) :
    Except SynsyuError (List (String × VersionInfo)) × Nat :=
  if packages = [] then (Except.ok [], 0)
  else query_repo_loop parseSize (chunksOf 64 packages) oracle []

/-- Spec-side (§6, §8): the contribution step of the
"total download bytes across update-available entries" counter — an
update-available entry contributes its selected download size under a
saturating add, everything else contributes nothing. -/
def totalStep (acc : Nat) (kv : String × ManifestEntry) : Nat :=
  if kv.2.update_available then
    match kv.2.download_size_selected with
    | some size => satAdd64 acc size
    | none => acc
  else acc

/-- Spec-side: the saturating sum of the selected download size over
exactly the update-available entries of a manifest. -/
def selectedDownloadTotal (entries : List (String × ManifestEntry)) : Nat :=
  entries.foldl totalStep 0

/-- The per-package resolved entries of a run, in input order (the list
`build_manifest` inserts into its entry map). -/
def resolve_entries (cmp : Cmp) (repo_versions aur_versions : List (String × VersionInfo)) :
    List InstalledPackage → Option (List (String × ManifestEntry))
  | [] => some []
  | package :: rest =>
    match resolve_package cmp package (List.lookup package.name repo_versions)
        (List.lookup package.name aur_versions) with
    | none => none
    | some entry =>
      (resolve_entries cmp repo_versions aur_versions rest).map ((package.name, entry) :: ·)

/-- A concrete version table for the example comparator: indexes the
four version strings used by the concrete instances below. -/
def verIndex (v : String) : Option Nat :=
  if v = "1.0-1" then some 0
  else if v = "1.1-1" then some 1
  else if v = "2.0-1" then some 2
  else if v = "3.0-1" then some 3
  else none

/-- A concrete, consistent comparator in the image of the external
`vercmp` collaborator, defined on the four version strings of the
concrete instances. -/
def cmpTable : Cmp := fun a b =>
  match verIndex a, verIndex b with
  | some i, some j => some (compare i j)
  | _, _ => none

/-- Concrete tarball-size probe returning no size hint. -/
def probe0 : String → Option Nat := fun _ => none

/-- Concrete AUR configuration: batch arity 2, 3 retries, 4 parallel
requests, rate limiting disabled. -/
def cfgEx : AurConfig :=
  AurConfig.mk "https://aur.archlinux.org/rpc/" 10 2 3 4 0

/-- Concrete AUR client built from `cfgEx`. -/
def clientEx : AurClient := AurClient.new cfgEx

/-- Concrete response entry for the requested package "foo". -/
def fooEntry : AurEntry := AurEntry.mk "foo" "1.0-1" none (some 5) none

/-- Concrete response entry for "evil", a name never requested. -/
def evilEntry : AurEntry := AurEntry.mk "evil" "9.9-1" none (some 5) none

/-- Successful AUR response carrying `fooEntry`. -/
def fooResponse : SendOutcome :=
  SendOutcome.response 200 none (some (AurResponse.mk (some 1) [fooEntry] none))

/-- Successful AUR response carrying only `evilEntry`. -/
def evilResponse : SendOutcome :=
  SendOutcome.response 200 none (some (AurResponse.mk (some 1) [evilEntry] none))

/-- Concrete installed package for the reconciliation instances:
installed version strictly greater than both candidates. -/
def pkgC1 : InstalledPackage := InstalledPackage.mk "widget" "3.0-1" (some "extra")

/-- Concrete primary-repository candidate record, version "2.0-1". -/
def repoC1 : VersionInfo := VersionInfo.mk "2.0-1" (some 100) (some 300)

/-- Concrete AUR candidate record, same version "2.0-1". -/
def aurC1 : VersionInfo := VersionInfo.mk "2.0-1" (some 120) (some 310)

/-- Concrete installed package with an update available from the
primary repository. -/
def pkgC4 : InstalledPackage := InstalledPackage.mk "gadget" "1.0-1" none

/-- Concrete primary-repository record newer than `pkgC4`. -/
def repoC4 : VersionInfo := VersionInfo.mk "1.1-1" (some 10) (some 20)

/-- Concrete installed package with no candidate source anywhere. -/
def pkgC9b : InstalledPackage := InstalledPackage.mk "thing" "2.0-1" none

/-- Concrete package list for the manifest-total instance. -/
def packagesC9 : List InstalledPackage := [pkgC4, pkgC9b]

/-- Concrete repo-version map for the manifest-total instance. -/
def repoMapC9 : List (String × VersionInfo) := [("gadget", repoC4)]

/-- Concatenating the chunks gives back the list (fuel version). -/
theorem chunksOfAux_flatten {α : Type} (n : Nat) (hn : n ≠ 0) :
    ∀ (fuel : Nat) (l : List α), l.length ≤ fuel →
      (chunksOfAux n fuel l).flatten = l := by
  intro fuel
  induction fuel with
  | zero =>
    intro l hl
    match l with
    | [] => simp [chunksOfAux]
    | x :: xs => simp at hl
  | succ fuel ih =>
    intro l hl
    match l with
    | [] => simp [chunksOfAux]
    | x :: xs =>
      rw [chunksOfAux, if_neg hn, List.flatten_cons, ih]
      · exact List.take_append_drop n (x :: xs)
      · simp only [List.length_drop, List.length_cons]
        simp only [List.length_cons] at hl
        omega

/-- Every chunk has length at most `n` (fuel version). -/
theorem chunksOfAux_length_le {α : Type} (n : Nat) (hn : n ≠ 0) :
    ∀ (fuel : Nat) (l : List α), l.length ≤ fuel →
      ∀ b ∈ chunksOfAux n fuel l, b.length ≤ n := by
  intro fuel
  induction fuel with
  | zero =>
    intro l hl b hb
    match l with
    | [] => simp [chunksOfAux] at hb
    | x :: xs => simp at hl
  | succ fuel ih =>
    intro l hl b hb
    match l with
    | [] => simp [chunksOfAux] at hb
    | x :: xs =>
      rw [chunksOfAux, if_neg hn] at hb
      rcases List.mem_cons.mp hb with rfl | hb
      · simp only [List.length_take]
        exact Nat.min_le_left n (x :: xs).length
      · refine ih _ ?_ b hb
        simp only [List.length_drop, List.length_cons]
        simp only [List.length_cons] at hl
        omega

/-- Concatenating the chunks of a list gives back the list. -/
theorem chunksOf_flatten {α : Type} (n : Nat) (hn : n ≠ 0) (l : List α) :
    (chunksOf n l).flatten = l :=
  chunksOfAux_flatten n hn l.length l le_rfl

/-- Every chunk of a list has length at most `n`. -/
theorem chunksOf_length_le {α : Type} (n : Nat) (hn : n ≠ 0) (l : List α) :
    ∀ b ∈ chunksOf n l, b.length ≤ n :=
  chunksOfAux_length_le n hn l.length l le_rfl

/-- Inserting a fresh key appends the binding. -/
theorem insertAL_fresh {α : Type} (m : List (String × α)) (k : String) (v : α)
    (h : k ∉ m.map Prod.fst) : insertAL m k v = m ++ [(k, v)] := by
  induction m with
  | nil => rfl
  | cons kv rest ih =>
    simp only [List.map_cons, List.mem_cons, not_or] at h
    rw [insertAL, if_neg (fun he => h.1 he.symm), ih h.2]
    rfl

/-- A key of the map after an insert is the inserted key or an old key. -/
theorem keys_insertAL {α : Type} (m : List (String × α)) (k k' : String) (v : α)
    (h : k' ∈ (insertAL m k v).map Prod.fst) : k' = k ∨ k' ∈ m.map Prod.fst := by
  induction m with
  | nil => simpa [insertAL] using h
  | cons kv rest ih =>
    by_cases he : kv.1 = k
    · rw [insertAL, if_pos he] at h
      simp only [List.map_cons, List.mem_cons] at h ⊢
      rcases h with h | h
      · exact Or.inl h
      · exact Or.inr (Or.inr h)
    · rw [insertAL, if_neg he] at h
      simp only [List.map_cons, List.mem_cons] at h ⊢
      rcases h with h | h
      · exact Or.inr (Or.inl h)
      · rcases ih h with h' | h'
        · exact Or.inl h'
        · exact Or.inr (Or.inr h')

/-- Keys of the fold building the per-chunk result map come from the
accumulator or from the names of the response entries. -/
theorem collect_keys_aux (probe : String → Option Nat) (entries : List AurEntry) :
    ∀ (acc : List (String × VersionInfo)) (k : String),
      k ∈ (entries.foldl
            (fun acc entry => insertAL acc entry.name (aur_entry_record probe entry))
            acc).map Prod.fst →
      k ∈ acc.map Prod.fst ∨ ∃ entry, entry ∈ entries ∧ entry.name = k := by
  induction entries with
  | nil => intro acc k h; exact Or.inl h
  | cons e rest ih =>
    intro acc k h
    rw [List.foldl_cons] at h
    rcases ih _ k h with h' | h'
    · rcases keys_insertAL _ _ _ _ h' with h'' | h''
      · exact Or.inr ⟨e, List.mem_cons_self e rest, h''.symm⟩
      · exact Or.inl h''
    · rcases h' with ⟨entry, hm, hname⟩
      exact Or.inr ⟨entry, List.mem_cons_of_mem e hm, hname⟩

/-- Every key of a per-chunk result map is the name carried by some
entry of the successful response body. -/
theorem collect_results_keys (probe : String → Option Nat) (entries : List AurEntry)
    (k : String) (h : k ∈ (collect_results probe entries).map Prod.fst) :
    ∃ entry, entry ∈ entries ∧ entry.name = k := by
  rcases collect_keys_aux probe entries [] k h with h' | h'
  · simp at h'
  · exact h'


/-- A successful run of the `fetch_chunk` retry loop got its mapping
from the entries of a successful, error-free response body in the
oracle. -/
theorem fetch_chunk_loop_ok (client : AurClient) (probe : String → Option Nat)
    (url : String) :
    ∀ (oracle : List SendOutcome) (attempt : Nat) (m : List (String × VersionInfo)),
      (fetch_chunk_loop client probe url oracle attempt).1 = Except.ok m →
      ∃ status len payload, SendOutcome.response status len (some payload) ∈ oracle ∧
        payload.error = none ∧ m = collect_results probe payload.results := by
  intro oracle
  induction oracle with
  | nil =>
    intro attempt m h
    simp [fetch_chunk_loop] at h
  | cons outcome rest ih =>
    intro attempt m h
    cases outcome with
    | transportError msg => simp [fetch_chunk_loop] at h
    | response status len body =>
      by_cases hs : status = 200
      · subst hs
        cases body with
        | none => simp [fetch_chunk_loop] at h
        | some payload =>
          cases he : payload.error with
          | some err => simp [fetch_chunk_loop, he] at h
          | none =>
            simp only [fetch_chunk_loop, he] at h
            refine ⟨200, len, payload, List.mem_cons_self .., he, ?_⟩
            simpa using h.symm
      · simp only [fetch_chunk_loop] at h
        rw [if_neg hs] at h
        by_cases hr : client.max_retries ≤ attempt + 1
        · rw [if_pos hr] at h
          simp at h
        · rw [if_neg hr] at h
          rcases hrec : fetch_chunk_loop client probe url rest (attempt + 1)
            with ⟨r, s, sl⟩
          rw [hrec] at h
          rcases ih (attempt + 1) m (by rw [hrec]; exact h) with
            ⟨st, ln, p, hp, hperr, hm⟩
          exact ⟨st, ln, p, List.mem_cons_of_mem _ hp, hperr, hm⟩

/-- Inversion of `resolve_package`: a successful resolution comes from
successful comparator runs and a successful core decision, and the
entry fields are exactly the ones assembled at the end of the source
function. -/
theorem resolve_package_inv (cmp : Cmp) (package : InstalledPackage)
    (repo_info aur_info : Option VersionInfo) (entry : ManifestEntry)
    (h : resolve_package cmp package repo_info aur_info = some entry) :
    ∃ repo_cmp aur_cmp source target update notes,
      compare_opt cmp package.version repo_info = some repo_cmp ∧
      compare_opt cmp package.version aur_info = some aur_cmp ∧
      resolve_core cmp package repo_info aur_info repo_cmp aur_cmp =
        some (source, target, update, notes) ∧
      entry =
        { installed_version := package.version
          version_repo := repo_info.map VersionInfo.version
          version_aur := aur_info.map VersionInfo.version
          newer_version := target
          source := source
          update_available := update
          notes := notes
          download_size_repo := repo_info.bind VersionInfo.download_size
          installed_size_repo := repo_info.bind VersionInfo.installed_size
          download_size_aur := aur_info.bind VersionInfo.download_size
          installed_size_aur := aur_info.bind VersionInfo.installed_size
          download_size_selected :=
            (selected_sizes source (repo_info.bind VersionInfo.download_size)
              (repo_info.bind VersionInfo.installed_size)
              (aur_info.bind VersionInfo.download_size)
              (aur_info.bind VersionInfo.installed_size)).1
          installed_size_selected :=
            (selected_sizes source (repo_info.bind VersionInfo.download_size)
              (repo_info.bind VersionInfo.installed_size)
              (aur_info.bind VersionInfo.download_size)
              (aur_info.bind VersionInfo.installed_size)).2 } := by
  unfold resolve_package at h
  rcases h1 : compare_opt cmp package.version repo_info with _ | repo_cmp
  · rw [h1] at h; exact absurd h (by simp)
  · rw [h1] at h
    dsimp only at h
    rcases h2 : compare_opt cmp package.version aur_info with _ | aur_cmp
    · rw [h2] at h; exact absurd h (by simp)
    · rw [h2] at h
      dsimp only at h
      rcases h3 : resolve_core cmp package repo_info aur_info repo_cmp aur_cmp
        with _ | ⟨source, target, update, notes⟩
      · rw [h3] at h; exact absurd h (by simp)
      · rw [h3] at h
        dsimp only at h
        refine ⟨repo_cmp, aur_cmp, source, target, update, notes, rfl, rfl, h3, ?_⟩
        simpa using h.symm

/-- Generalized invariant of the `build_manifest` loop: when the pending
package names are fresh for the accumulated entry map and mutually
distinct, the loop appends exactly the per-package resolved entries and
folds the download-total step over them. -/
theorem build_loop_spec (cmp : Cmp) (repo_versions aur_versions : List (String × VersionInfo)) :
    ∀ (packages : List InstalledPackage) (entries : List (String × ManifestEntry))
      (rc ac up total : Nat)
      (out : List (String × ManifestEntry) × Nat × Nat × Nat × Nat),
      (∀ p ∈ packages, p.name ∉ entries.map Prod.fst) →
      (packages.map InstalledPackage.name).Nodup →
      build_loop cmp repo_versions aur_versions packages (entries, rc, ac, up, total) =
        some out →
      ∃ news, resolve_entries cmp repo_versions aur_versions packages = some news ∧
        out.1 = entries ++ news ∧
        out.2.2.2.2 = news.foldl totalStep total := by
  intro packages
  induction packages with
  | nil =>
    intro entries rc ac up total out hfresh hnd h
    simp only [build_loop, Option.some.injEq] at h
    refine ⟨[], rfl, ?_, ?_⟩
    · rw [← h]; simp
    · rw [← h]; rfl
  | cons p rest ih =>
    intro entries rc ac up total out hfresh hnd h
    simp only [build_loop] at h
    rcases hres : resolve_package cmp p (List.lookup p.name repo_versions)
        (List.lookup p.name aur_versions) with _ | resolved
    · rw [hres] at h; simp at h
    · rw [hres] at h
      dsimp only at h
      have hins : insertAL entries p.name resolved = entries ++ [(p.name, resolved)] :=
        insertAL_fresh _ _ _ (hfresh p (List.mem_cons_self p rest))
      have hnotin : p.name ∉ rest.map InstalledPackage.name :=
        (List.nodup_cons.mp (by simpa using hnd)).1
      have hfresh' : ∀ q ∈ rest, q.name ∉
          (entries ++ [(p.name, resolved)]).map Prod.fst := by
        intro q hq
        simp only [List.map_append, List.mem_append, List.map_cons, List.map_nil,
          List.mem_singleton, not_or]
        refine ⟨hfresh q (List.mem_cons_of_mem p hq), ?_⟩
        intro he
        exact hnotin (he ▸ List.mem_map_of_mem InstalledPackage.name hq)
      have hnd' : (rest.map InstalledPackage.name).Nodup :=
        (List.nodup_cons.mp (by simpa using hnd)).2
      rw [hins] at h
      rcases ih _ _ _ _ _ _ hfresh' hnd' h with ⟨news, hre, hout1, htot⟩
      refine ⟨(p.name, resolved) :: news, ?_, ?_, ?_⟩
      · simp only [resolve_entries, hres, hre]; rfl
      · rw [hout1]; simp
      · rw [htot, List.foldl_cons]
        have hstep :
            (if resolved.update_available then
              (up + 1,
                match resolved.download_size_selected with
                | some size => satAdd64 total size
                | none => total)
             else (up, total)).2 = totalStep total (p.name, resolved) := by
          by_cases hu : resolved.update_available <;> simp [totalStep, hu]
        rw [hstep]

/-- C1: evaluation at the failing input. The comparator reports the two
candidate versions Equal (repo "2.0-1" vs AUR "2.0-1"), so per the
claim no note may be attached; but because the installed version
"3.0-1" compares Greater than the AUR candidate, `resolve_package`
attaches the remote-ahead note anyway: the note condition in the code
tests compare(installed, aur) where the stated policy (and the note
text itself) requires compare(aur, repo). -/
theorem C1_note_attached_on_equal_candidates :
    cmpTable repoC1.version aurC1.version = some Ordering.eq ∧
    cmpTable pkgC1.version aurC1.version = some Ordering.gt ∧
    (resolve_package cmpTable pkgC1 (some repoC1) (some aurC1)).map
        (fun e => (e.source, e.notes)) =
      some (PackageSource.Pacman,
        some "AUR ahead of repo, but repo chosen per policy") := by
  refine ⟨by decide, by decide, by decide⟩

/-- C2 counterexample: with a retry budget of 3 and a successful
response available for a second attempt, the first transport-level send
failure is surfaced to the caller immediately as a NetworkError, after
exactly one request and no backoff sleep — refuting the claim that
transport failures are retried before being surfaced. -/
theorem C2_counterexample :
    clientEx.max_retries = 3 ∧
    fetch_chunk clientEx probe0 ["foo"]
        [SendOutcome.transportError "connection reset", fooResponse] =
      (Except.error (SynsyuError.Network
        ("AUR request to https://aur.archlinux.org/rpc?v=5&type=info&arg[]=foo failed: connection reset")),
        1, []) :=
  ⟨by decide, rfl⟩

/-- C2 amended: a transport-level failure of the HTTP send is surfaced
immediately as a NetworkError — one request, no retry, no backoff
sleep — regardless of the remaining retry budget and of what the
network would have answered later; the bounded retry-with-backoff
policy of `fetch_chunk` applies only to non-success HTTP statuses. -/
theorem C2_transport_failure_immediate (client : AurClient)
    (probe : String → Option Nat) (url msg : String)
    (rest : List SendOutcome) (attempt : Nat) :
    fetch_chunk_loop client probe url (SendOutcome.transportError msg :: rest) attempt =
      (Except.error (SynsyuError.Network ("AUR request to " ++ url ++ " failed: " ++ msg)),
        1, []) := rfl

/-- C5 counterexample: for a payload of `2^64 - 1` bytes under a cap of
1 KiB/s the saturating u64 arithmetic of `throttle_delay` caps the
computed sleep below the exact value `ceil(bytes * 1000 / 1024)`
required by the claim. -/
theorem C5_counterexample :
    (enforce_rate_limit 1 (some 18446744073709551615)).getD 0 ≠
      (18446744073709551615 * 1000) ⌈/⌉ 1024 := by decide

/-- C5 amended: whenever the intermediate products stay within u64
range (no saturation), the rate-limit sleep equals exactly
`ceil(bytes * 1000 / (kib_per_sec * 1024))` milliseconds, and a cap of
0 always disables the delay entirely. -/
theorem C5_throttle_exact (bytes kib_per_sec : Nat) (h0 : kib_per_sec ≠ 0)
    (hd : kib_per_sec * 1024 ≤ U64_MAX)
    (hb : bytes * 1000 + (kib_per_sec * 1024 - 1) ≤ U64_MAX) :
    (enforce_rate_limit kib_per_sec (some bytes)).getD 0 =
      (bytes * 1000) ⌈/⌉ (kib_per_sec * 1024) ∧
    ∀ len, enforce_rate_limit 0 len = none := by
  constructor
  · have hden : satMul64 kib_per_sec 1024 = kib_per_sec * 1024 := Nat.min_eq_left hd
    have hbytes : satMul64 bytes 1000 = bytes * 1000 :=
      Nat.min_eq_left (le_trans (Nat.le_add_right _ _) hb)
    rw [enforce_rate_limit.eq_def, if_neg h0]
    dsimp only
    rw [throttle_delay, if_neg h0]
    dsimp only
    rw [hden, hbytes]
    have hdpos : kib_per_sec * 1024 ≠ 0 := by positivity
    rw [if_neg hdpos]
    have hadd : satAdd64 (bytes * 1000) (kib_per_sec * 1024 - 1) =
        bytes * 1000 + (kib_per_sec * 1024 - 1) := Nat.min_eq_left hb
    rw [hadd]
    rw [Nat.ceilDiv_eq_add_pred_div]
    have hnum : bytes * 1000 + (kib_per_sec * 1024 - 1) =
        bytes * 1000 + kib_per_sec * 1024 - 1 := by
      have : 1 ≤ kib_per_sec * 1024 := Nat.one_le_iff_ne_zero.mpr hdpos
      omega
    rw [hnum]
    by_cases hm : (bytes * 1000 + kib_per_sec * 1024 - 1) / (kib_per_sec * 1024) = 0
    · simp [hm]
    · simp [hm]
  · intro len
    rw [enforce_rate_limit.eq_def, if_pos rfl]

/-- C5 witness: at `bytes = 2048`, `kib_per_sec = 1` the hypotheses
hold, the computed sleep equals the exact ceiling formula, and its
value is the 2000 milliseconds the claim expects. -/
theorem C5_throttle_exact_witness :
    ((1 : Nat) ≠ 0 ∧ 1 * 1024 ≤ U64_MAX ∧ 2048 * 1000 + (1 * 1024 - 1) ≤ U64_MAX) ∧
    ((enforce_rate_limit 1 (some 2048)).getD 0 = (2048 * 1000) ⌈/⌉ (1 * 1024) ∧
      ∀ len, enforce_rate_limit 0 len = none) ∧
    (enforce_rate_limit 1 (some 2048)).getD 0 = 2000 :=
  ⟨⟨by decide, by decide, by decide⟩,
    C5_throttle_exact 2048 1 (by decide) (by decide) (by decide),
    by decide⟩

/-- C6: the backoff sleep before retry attempt `k` equals
`200 * 2 ^ min k 8` milliseconds; the delays are non-decreasing across
successive attempts and each is bounded by `200 * 2 ^ 8`. -/
theorem C6_backoff_formula (j k : Nat) (h : j ≤ k) :
    backoff_delay k = 200 * 2 ^ min k 8 ∧
    backoff_delay j ≤ backoff_delay k ∧
    backoff_delay k ≤ 200 * 2 ^ 8 := by
  have hval : ∀ m : Nat, backoff_delay m = 200 * 2 ^ min m 8 := by
    intro m
    have hle : 2 ^ min m 8 ≤ 2 ^ 8 :=
      Nat.pow_le_pow_right (by norm_num) (Nat.min_le_right m 8)
    have hcap : 200 * 2 ^ min m 8 ≤ U64_MAX := by
      calc 200 * 2 ^ min m 8 ≤ 200 * 2 ^ 8 := Nat.mul_le_mul_left 200 hle
        _ ≤ U64_MAX := by norm_num [U64_MAX]
    exact Nat.min_eq_left hcap
  refine ⟨hval k, ?_, ?_⟩
  · rw [hval j, hval k]
    exact Nat.mul_le_mul_left 200
      (Nat.pow_le_pow_right (by norm_num) (min_le_min h le_rfl))
  · rw [hval k]
    exact Nat.mul_le_mul_left 200
      (Nat.pow_le_pow_right (by norm_num) (Nat.min_le_right k 8))

/-- C6 witness: attempts 2 and 5. -/
theorem C6_backoff_formula_witness :
    (2 : Nat) ≤ 5 ∧
    (backoff_delay 5 = 200 * 2 ^ min 5 8 ∧
      backoff_delay 2 ≤ backoff_delay 5 ∧
      backoff_delay 5 ≤ 200 * 2 ^ 8) :=
  ⟨by decide, C6_backoff_formula 2 5 (by decide)⟩

/-- C10: fetching with an empty package list returns an empty mapping
with zero semaphore permits acquired and zero HTTP requests issued, for
every network oracle; likewise the pacman repo query with an empty list
returns an empty mapping with zero commands spawned. -/
theorem C10_empty_input_no_effects (client : AurClient)
    (oracles : List (List SendOutcome)) (probe : String → Option Nat)
    (parseSize : String → Option Nat) (cmdOracle : List CmdResult) :
    fetch_versions client [] oracles probe = (Except.ok [], 0, 0) ∧
    query_repo_versions parseSize [] cmdOracle = (Except.ok [], 0) := ⟨rfl, rfl⟩

/-- C3 counterexample: a successful response carrying an entry named
"evil" — a name never requested — yields a mapping keyed by "evil",
refuting the claim that every key of the mapping was present in some
request batch regardless of what the remote response carries. -/
theorem C3_counterexample :
    (fetch_chunk clientEx probe0 ["foo"] [evilResponse]).1 =
      Except.ok [("evil", VersionInfo.mk "9.9-1" (some 5) none)] ∧
    "evil" ∉ ["foo"] := ⟨rfl, by decide⟩

/-- C3 amended: every key of a successful fetch mapping is a name
carried by an entry of a successful response body found in the oracle —
the names are chosen by the remote service, not filtered against the
requested batch. -/
theorem C3_keys_from_response (client : AurClient) (probe : String → Option Nat)
    (chunk : List String) (oracle : List SendOutcome)
    (m : List (String × VersionInfo))
    (h : (fetch_chunk client probe chunk oracle).1 = Except.ok m)
    (k : String) (hk : k ∈ m.map Prod.fst) :
    ∃ status len payload, SendOutcome.response status len (some payload) ∈ oracle ∧
      ∃ entry, entry ∈ payload.results ∧ entry.name = k := by
  rcases fetch_chunk_loop_ok client probe (compose_url client chunk) oracle 0 m h with
    ⟨st, ln, p, hp, hperr, hm⟩
  subst hm
  rcases collect_results_keys probe p.results k hk with ⟨entry, hme, hname⟩
  exact ⟨st, ln, p, hp, entry, hme, hname⟩

/-- C3 witness: a concrete successful fetch of ["foo"] whose single key
"foo" is traced back to a response entry. -/
theorem C3_keys_from_response_witness :
    (fetch_chunk clientEx probe0 ["foo"] [fooResponse]).1 =
      Except.ok [("foo", VersionInfo.mk "1.0-1" (some 5) none)] ∧
    (∃ status len payload,
        SendOutcome.response status len (some payload) ∈ [fooResponse] ∧
      ∃ entry, entry ∈ payload.results ∧ entry.name = "foo") :=
  ⟨rfl, C3_keys_from_response clientEx probe0 ["foo"] [fooResponse]
    [("foo", VersionInfo.mk "1.0-1" (some 5) none)] rfl "foo" (by decide)⟩

/-- C4: `update_available` is true exactly when a candidate source is
chosen (Pacman or Aur) and the comparator reports the installed version
strictly less than that chosen source's version — it is computed
against the chosen source only, and is always false for Local and
Unknown. -/
theorem C4_update_flag (cmp : Cmp) (package : InstalledPackage)
    (repo_info aur_info : Option VersionInfo) (entry : ManifestEntry)
    (h : resolve_package cmp package repo_info aur_info = some entry) :
    (entry.update_available = true ↔
      (∃ v, repo_info = some v ∧ entry.source = PackageSource.Pacman ∧
        cmp package.version v.version = some Ordering.lt) ∨
      (∃ v, aur_info = some v ∧ entry.source = PackageSource.Aur ∧
        cmp package.version v.version = some Ordering.lt)) ∧
    ((entry.source = PackageSource.Local ∨ entry.source = PackageSource.Unknown) →
      entry.update_available = false) := by
  rcases resolve_package_inv cmp package repo_info aur_info entry h with
    ⟨repo_cmp, aur_cmp, source, target, update, notes, h1, h2, h3, hentry⟩
  subst hentry
  rcases repo_info with _ | rv
  · have hrc : repo_cmp = none := by simpa [compare_opt] using h1.symm
    subst hrc
    rcases aur_info with _ | av
    · have hac : aur_cmp = none := by simpa [compare_opt] using h2.symm
      subst hac
      simp only [resolve_core, Option.some.injEq, Prod.mk.injEq] at h3
      obtain ⟨hs, ht, hu, hn⟩ := h3
      subst hs; subst ht; subst hu; subst hn
      constructor
      · simp
      · intro _; simp
    · rcases hca : cmp package.version av.version with _ | ac
      · simp [compare_opt, hca] at h2
      · simp only [compare_opt, hca, Option.map_some', Option.some.injEq] at h2
        subst h2
        simp only [resolve_core, Option.some.injEq, Prod.mk.injEq] at h3
        obtain ⟨hs, ht, hu, hn⟩ := h3
        subst hs; subst ht; subst hu; subst hn
        constructor
        · simp [hca]
          cases ac <;> decide
        · intro hl; simp at hl
  · rcases hcr : cmp package.version rv.version with _ | rc
    · simp [compare_opt, hcr] at h1
    · simp only [compare_opt, hcr, Option.map_some', Option.some.injEq] at h1
      subst h1
      rcases aur_info with _ | av
      · have hac : aur_cmp = none := by simpa [compare_opt] using h2.symm
        subst hac
        simp only [resolve_core, Option.some.injEq, Prod.mk.injEq] at h3
        obtain ⟨hs, ht, hu, hn⟩ := h3
        subst hs; subst ht; subst hu; subst hn
        constructor
        · simp [hcr]
          cases rc <;> decide
        · intro hl; simp at hl
      · rcases hca : cmp package.version av.version with _ | ac
        · simp [compare_opt, hca] at h2
        · simp only [compare_opt, hca, Option.map_some', Option.some.injEq] at h2
          subst h2
          rcases hra : cmp rv.version av.version with _ | o
          · simp [resolve_core, hra] at h3
          · cases o with
            | lt =>
              simp only [resolve_core, hra, Option.some.injEq, Prod.mk.injEq] at h3
              obtain ⟨hs, ht, hu, hn⟩ := h3
              subst hs; subst ht; subst hu; subst hn
              constructor
              · simp [hca]
                cases ac <;> decide
              · intro hl; simp at hl
            | eq =>
              simp only [resolve_core, hra, Option.some.injEq, Prod.mk.injEq] at h3
              obtain ⟨hs, ht, hu, hn⟩ := h3
              subst hs; subst ht; subst hu; subst hn
              constructor
              · simp [hcr]
                cases rc <;> decide
              · intro hl; simp at hl
            | gt =>
              simp only [resolve_core, hra, Option.some.injEq, Prod.mk.injEq] at h3
              obtain ⟨hs, ht, hu, hn⟩ := h3
              subst hs; subst ht; subst hu; subst hn
              constructor
              · simp [hcr]
                cases rc <;> decide
              · intro hl; simp at hl

/-- C4 witness: a concrete resolution (installed "1.0-1", repo
candidate "1.1-1", no AUR record) whose update flag is true exactly
through the chosen-source disjunct. -/
theorem C4_update_flag_witness :
    (true = true ↔
      (∃ v, (some repoC4 : Option VersionInfo) = some v ∧
        PackageSource.Pacman = PackageSource.Pacman ∧
        cmpTable pkgC4.version v.version = some Ordering.lt) ∨
      (∃ v, (none : Option VersionInfo) = some v ∧
        PackageSource.Pacman = PackageSource.Aur ∧
        cmpTable pkgC4.version v.version = some Ordering.lt)) ∧
    ((PackageSource.Pacman = PackageSource.Local ∨
        PackageSource.Pacman = PackageSource.Unknown) →
      true = false) :=
  C4_update_flag cmpTable pkgC4 (some repoC4) none
    (ManifestEntry.mk "1.0-1" (some "1.1-1") none "1.1-1" PackageSource.Pacman true none
      (some 10) (some 20) none none (some 10) (some 20)) (by decide)

/-- C7 counterexample: with batch arity clamped to 1, the duplicated
input list ["a", "a"] is split into two batches that both contain "a",
so the batches are not pairwise disjoint and "a" does not appear in
exactly one batch — refuting the claim for arbitrary input lists. -/
theorem C7_counterexample :
    chunksOf (AurClient.new (AurConfig.mk "u" 1 1 1 1 0)).max_args ["a", "a"] =
      [["a"], ["a"]] ∧
    ¬ (([["a"], ["a"]] : List (List String)).Pairwise List.Disjoint) := by
  refine ⟨rfl, ?_⟩
  intro hp
  have hd : List.Disjoint ["a"] ["a"] :=
    (List.pairwise_cons.mp hp).1 ["a"] (List.mem_cons_self ..)
  exact hd (List.mem_cons_self ..) (List.mem_cons_self ..)

/-- C7 amended: for every configuration and every non-empty input list
of pairwise-distinct names (a name set, as the spec's fetch contract
states), the batches each hold at most the clamped `max_args` names,
their union as a set equals the input set, and distinct batches are
pairwise disjoint. -/
theorem C7_batches_partition (config : AurConfig) (names : List String)
    (_hne : names ≠ []) (hnd : names.Nodup) :
    (∀ b ∈ chunksOf (AurClient.new config).max_args names,
        b.length ≤ (AurClient.new config).max_args) ∧
    (∀ x, x ∈ (chunksOf (AurClient.new config).max_args names).flatten ↔ x ∈ names) ∧
    (chunksOf (AurClient.new config).max_args names).Pairwise List.Disjoint := by
  have hn : (AurClient.new config).max_args ≠ 0 := by
    have h1 : 1 ≤ max config.max_args 1 := le_max_right _ _
    simp only [AurClient.new]
    omega
  refine ⟨chunksOf_length_le _ hn names, ?_, ?_⟩
  · intro x
    rw [chunksOf_flatten _ hn]
  · have hflat : (chunksOf (AurClient.new config).max_args names).flatten = names :=
      chunksOf_flatten _ hn names
    have hfn : (chunksOf (AurClient.new config).max_args names).flatten.Nodup := by
      rw [hflat]; exact hnd
    exact (List.nodup_flatten.mp hfn).2

/-- C7 witness: names ["a", "b", "c"] with batch arity 2. -/
theorem C7_batches_partition_witness :
    ((["a", "b", "c"] : List String) ≠ [] ∧ (["a", "b", "c"] : List String).Nodup) ∧
    ((∀ b ∈ chunksOf (AurClient.new cfgEx).max_args ["a", "b", "c"],
        b.length ≤ (AurClient.new cfgEx).max_args) ∧
      (∀ x, x ∈ (chunksOf (AurClient.new cfgEx).max_args ["a", "b", "c"]).flatten ↔
        x ∈ (["a", "b", "c"] : List String)) ∧
      (chunksOf (AurClient.new cfgEx).max_args ["a", "b", "c"]).Pairwise List.Disjoint) :=
  ⟨⟨by decide, by decide⟩,
    C7_batches_partition cfgEx ["a", "b", "c"] (by decide) (by decide)⟩

/-- C8: the four per-source size fields are populated from whichever of
the primary/AUR records is present, independently of which source is
chosen; the two selected size fields mirror the chosen source and are
both absent for Local/Unknown. -/
theorem C8_size_fields (cmp : Cmp) (package : InstalledPackage)
    (repo_info aur_info : Option VersionInfo) (entry : ManifestEntry)
    (h : resolve_package cmp package repo_info aur_info = some entry) :
    entry.download_size_repo = repo_info.bind VersionInfo.download_size ∧
    entry.installed_size_repo = repo_info.bind VersionInfo.installed_size ∧
    entry.download_size_aur = aur_info.bind VersionInfo.download_size ∧
    entry.installed_size_aur = aur_info.bind VersionInfo.installed_size ∧
    (entry.source = PackageSource.Pacman →
      entry.download_size_selected = repo_info.bind VersionInfo.download_size ∧
      entry.installed_size_selected = repo_info.bind VersionInfo.installed_size) ∧
    (entry.source = PackageSource.Aur →
      entry.download_size_selected = aur_info.bind VersionInfo.download_size ∧
      entry.installed_size_selected = aur_info.bind VersionInfo.installed_size) ∧
    ((entry.source = PackageSource.Local ∨ entry.source = PackageSource.Unknown) →
      entry.download_size_selected = none ∧ entry.installed_size_selected = none) := by
  rcases resolve_package_inv cmp package repo_info aur_info entry h with
    ⟨repo_cmp, aur_cmp, source, target, update, notes, h1, h2, h3, hentry⟩
  subst hentry
  refine ⟨rfl, rfl, rfl, rfl, ?_, ?_, ?_⟩
  · intro hs
    simp only at hs
    subst hs
    exact ⟨rfl, rfl⟩
  · intro hs
    simp only at hs
    subst hs
    exact ⟨rfl, rfl⟩
  · intro hs
    rcases hs with hs | hs <;> simp only at hs <;> subst hs <;> exact ⟨rfl, rfl⟩

/-- C8 witness: both records present (repo "2.0-1" with sizes 100/300,
AUR "2.0-1" with sizes 120/310), repo chosen: the four per-source
fields carry both records' sizes and the selected fields mirror the
repo record. -/
theorem C8_size_fields_witness :
    some 100 = (some repoC1 : Option VersionInfo).bind VersionInfo.download_size ∧
    some 300 = (some repoC1 : Option VersionInfo).bind VersionInfo.installed_size ∧
    some 120 = (some aurC1 : Option VersionInfo).bind VersionInfo.download_size ∧
    some 310 = (some aurC1 : Option VersionInfo).bind VersionInfo.installed_size ∧
    (PackageSource.Pacman = PackageSource.Pacman →
      some 100 = (some repoC1 : Option VersionInfo).bind VersionInfo.download_size ∧
      some 300 = (some repoC1 : Option VersionInfo).bind VersionInfo.installed_size) ∧
    (PackageSource.Pacman = PackageSource.Aur →
      some 100 = (some aurC1 : Option VersionInfo).bind VersionInfo.download_size ∧
      some 300 = (some aurC1 : Option VersionInfo).bind VersionInfo.installed_size) ∧
    ((PackageSource.Pacman = PackageSource.Local ∨
        PackageSource.Pacman = PackageSource.Unknown) →
      (some 100 : Option Nat) = none ∧ (some 300 : Option Nat) = none) :=
  C8_size_fields cmpTable pkgC1 (some repoC1) (some aurC1)
    (ManifestEntry.mk "3.0-1" (some "2.0-1") (some "2.0-1") "2.0-1" PackageSource.Pacman
      false (some "AUR ahead of repo, but repo chosen per policy")
      (some 100) (some 300) (some 120) (some 310) (some 100) (some 300)) (by decide)

/-- C9: for a package list with pairwise-distinct names (the data
model's unique-identifier invariant), the manifest metadata's
`download_size_total` equals the saturating sum of the selected
download size over exactly the update-available entries of the
document. -/
theorem C9_download_total (cmp : Cmp) (packages : List InstalledPackage)
    (repo_versions aur_versions : List (String × VersionInfo)) (doc : ManifestDocument)
    (hnd : (packages.map InstalledPackage.name).Nodup)
    (h : build_manifest cmp packages repo_versions aur_versions = some doc) :
    doc.metadata.download_size_total = selectedDownloadTotal doc.packages := by
  unfold build_manifest at h
  rcases hb : build_loop cmp repo_versions aur_versions packages ([], 0, 0, 0, 0)
    with _ | out
  · rw [hb] at h
    simp at h
  · obtain ⟨entries, rc, ac, up, total⟩ := out
    rw [hb] at h
    dsimp only at h
    rcases build_loop_spec cmp repo_versions aur_versions packages [] 0 0 0 0
        (entries, rc, ac, up, total) (by simp) hnd hb with ⟨news, hre, hout1, htot⟩
    simp only [List.nil_append] at hout1
    have hdoc := (Option.some.inj h).symm
    subst hdoc
    dsimp only
    rw [selectedDownloadTotal, hout1]
    exact htot

/-- C9 witness: two packages, one with an update-available repo
candidate of download size 10, one with no candidate source; the
manifest total is 10 and equals the fold over the document's
entries. -/
theorem C9_download_total_witness :
    (packagesC9.map InstalledPackage.name).Nodup ∧
    ∃ doc, build_manifest cmpTable packagesC9 repoMapC9 [] = some doc ∧
      doc.metadata.download_size_total = selectedDownloadTotal doc.packages :=
  ⟨by decide,
    ManifestDocument.mk (ManifestMetadata.mk "synsyu_core" 2 1 0 1 10)
      [("gadget", ManifestEntry.mk "1.0-1" (some "1.1-1") none "1.1-1"
          PackageSource.Pacman true none (some 10) (some 20) none none (some 10) (some 20)),
       ("thing", ManifestEntry.mk "2.0-1" none none "2.0-1"
          PackageSource.Unknown false none none none none none none none)],
    by decide,
    C9_download_total cmpTable packagesC9 repoMapC9 []
      (ManifestDocument.mk (ManifestMetadata.mk "synsyu_core" 2 1 0 1 10)
        [("gadget", ManifestEntry.mk "1.0-1" (some "1.1-1") none "1.1-1"
            PackageSource.Pacman true none (some 10) (some 20) none none (some 10) (some 20)),
         ("thing", ManifestEntry.mk "2.0-1" none none "2.0-1"
            PackageSource.Unknown false none none none none none none none)])
      (by decide) (by decide)⟩
